import Mathlib

/-!
A shallow embedding of the socket.io signaling server in `src/index.js`.

The server keeps two JavaScript `Map`s,
`emailToSocketIdMap : email → socket.id` and
`socketIdToEmailMap : socket.id → email`, a room registry managed by the
socket.io adapter, and six event handlers: `room:join`, four WebRTC relay
handlers (`user:call`, `call:accepted`, `peer:nego:needed`,
`peer:nego:done`) and `disconnect`.

Modelling choices, each justified against the source:
* JS `Map`s are modelled as association lists with first-match lookup;
  `set` replaces the binding for the key, `delete` removes it.  Identities
  (emails) and socket ids are `String`s, matching the data model (§3 of the
  design: an identity is an opaque caller-supplied string; socket.io ids
  are strings), where JS `Map` key equality coincides with structural
  string equality.
* JS runtime values appearing in message payloads are modelled by `JSVal`,
  with JS truthiness (`undefined`, `null`, `false`, `0`, `""` are falsy).
* An event emission (`socket.emit` or `io.to(x).emit`) is recorded as an
  `Emit` value; handlers return the list of emissions they perform, in
  program order.  `console.log` calls are not observable events.
* A handler body wrapped in `try { … } catch { socket.emit("error", …) }`
  is total; an exception thrown *outside* the try/catch (the destructuring
  of the event payload in the parameter list of the four relay handlers)
  is modelled as `Except.error`, an exception escaping the handler.
* `socket.disconnect(true)` on an evicted socket synchronously fires that
  socket's `disconnect` handler and removes it from all adapter rooms;
  both effects are modelled inside the join step at the point of the call.
-/

/-- A JavaScript runtime value as it appears in socket.io message payloads:
`undefined`, `null`, booleans, numbers, strings, or an object given by its
field list (first binding wins, as in a JS object at runtime). -/
inductive JSVal : Type where
  | undef : JSVal
  | nullV : JSVal
  | boolV : Bool → JSVal
  | numV : Int → JSVal
  | strV : String → JSVal
  | objV : List (String × JSVal) → JSVal
deriving Repr

/-- JS truthiness: `undefined`, `null`, `false`, `0` and the empty string
are falsy; every other primitive and every object is truthy.  This is the
test performed by `if (!email || !room)` and `if (!to || !offer)` in the
source. -/
def truthy : JSVal → Bool
  | JSVal.undef => false
  | JSVal.nullV => false
  | JSVal.boolV b => b
  | JSVal.numV n => n != 0
  | JSVal.strV s => s != ""
  | JSVal.objV _ => true

/-- First-match lookup in an association list: `Map.prototype.get`
(returns `none` for `undefined`). -/
def mapGet {β : Type} : List (String × β) → String → Option β
  | [], _ => none
  | (k', v) :: rest, k => if k = k' then some v else mapGet rest k

/-- Remove every binding of `k`: `Map.prototype.delete` (the lists built by
`mapSet` never hold a key twice, so this deletes the one binding). -/
def mapDelete {β : Type} : List (String × β) → String → List (String × β)
  | [], _ => []
  | (k', v) :: rest, k => if k = k' then mapDelete rest k else (k', v) :: mapDelete rest k

/-- `Map.prototype.set`: bind `k` to `v`, replacing any previous binding. -/
def mapSet {β : Type} (m : List (String × β)) (k : String) (v : β) : List (String × β) :=
  (k, v) :: mapDelete m k

/-- The two presence maps of the server (`src/index.js` lines 18-19):
`fwd` is `emailToSocketIdMap`, `rev` is `socketIdToEmailMap`. -/
structure DirState : Type where
  fwd : List (String × String)
  rev : List (String × String)
deriving Repr

/-- The initial state: both maps empty. -/
def initDir : DirState := ⟨[], []⟩

/-- The map cleanup done by the `disconnect` handler (lines 117-128):
look the socket up in `socketIdToEmailMap`; if found, delete both
directions; otherwise do nothing. -/
def disconnectDir (st : DirState) (sid : String) : DirState :=
  match mapGet st.rev sid with
  | some email => ⟨mapDelete st.fwd email, mapDelete st.rev sid⟩
  | none => st

/-- The directory mutation of the `room:join` handler (lines 40-48), for a
socket `sid` joining as `email`.  If `email` already maps to a different
socket `old`, the handler deletes `old`'s reverse entry, then forcibly
disconnects `old` — which synchronously fires `old`'s `disconnect` handler
(`disconnectDir`, a no-op on the maps because the reverse entry was just
deleted) — and finally sets both directions for the new socket.  Returns
the new state together with the list of sockets whose termination was
requested (`io.sockets.sockets.get(old)?.disconnect(true)`). -/
def joinDir (st : DirState) (sid email : String) : DirState × List String :=
  match mapGet st.fwd email with
  | some old =>
    if old = sid then
      (⟨mapSet st.fwd email sid, mapSet st.rev sid email⟩, [])
    else
      let st1 : DirState := ⟨st.fwd, mapDelete st.rev old⟩
      let st2 := disconnectDir st1 old
      (⟨mapSet st2.fwd email sid, mapSet st2.rev sid email⟩, [old])
  | none => (⟨mapSet st.fwd email sid, mapSet st.rev sid email⟩, [])

/-- The mutual-inverse property claimed for the two presence maps:
identity `e` maps to handle `h` exactly when `h` maps back to `e`. -/
def InvDir (st : DirState) : Prop :=
  ∀ e h : String, mapGet st.fwd e = some h ↔ mapGet st.rev h = some e

/-- An event affecting the presence directory: a `room:join` with a valid
payload by socket `sid` under identity `email`, or a transport-level
disconnect of socket `sid`. -/
inductive DirEvent : Type where
  | join : String → String → DirEvent
  | disconnect : String → DirEvent
deriving Repr

/-- One handler execution, projected to the presence maps. -/
def dirStep (st : DirState) : DirEvent → DirState
  | DirEvent.join sid email => (joinDir st sid email).1
  | DirEvent.disconnect sid => disconnectDir st sid

/-- Run a sequence of events from a state. -/
def dirRun (st : DirState) : List DirEvent → DirState
  | [] => st
  | e :: rest => dirRun (dirStep st e) rest

/-- A `room:join` is benign when the joining socket is not currently bound
to a *different* identity in the reverse map; disconnects are always
benign.  (The handler itself never checks this.) -/
def goodStepB (st : DirState) : DirEvent → Bool
  | DirEvent.join sid email =>
    match mapGet st.rev sid with
    | none => true
    | some e => e == email
  | DirEvent.disconnect _ => true

/-- Every step of the trace is benign in the state in which it runs. -/
def goodRunB (st : DirState) : List DirEvent → Bool
  | [] => true
  | e :: rest => goodStepB st e && goodRunB (dirStep st e) rest

/-- An observable emission. `addressed target ev payload` is
`io.to(target).emit(ev, payload)`; `direct sid ev payload` is
`socket.emit(ev, payload)` on the socket handling the event. -/
inductive Emit : Type where
  | addressed : JSVal → String → JSVal → Emit
  | direct : String → String → JSVal → Emit
deriving Repr

/-- A possibly absent string as a JS value (`Map.get` yields `undefined`
when the key is absent). -/
def optStr : Option String → JSVal
  | some s => JSVal.strV s
  | none => JSVal.undef

/-- The full `disconnect` handler (lines 117-128): the directory cleanup;
it emits nothing. -/
def disconnectHandler (st : DirState) (sid : String) : DirState × List Emit :=
  (disconnectDir st sid, [])

/-- The adapter's room bookkeeping when a socket disconnects: it leaves
every room it was in. -/
def roomsRemove (rooms : List (String × List String)) (sid : String) :
    List (String × List String) :=
  rooms.map (fun p => (p.1, p.2.filter (fun x => x ≠ sid)))

/-- `socket.join(room)`: add the socket to the room's member set (created
on first join; sets never hold a member twice, and iteration follows
insertion order). -/
def roomInsert (rooms : List (String × List String)) (room sid : String) :
    List (String × List String) :=
  match mapGet rooms room with
  | some ms => if sid ∈ ms then rooms else mapSet rooms room (ms ++ [sid])
  | none => mapSet rooms room [sid]

/-- Recipients of `io.to(target).emit(…)`: the members of the adapter room
named `target` (a socket id addresses its personal room).  A target that
names no room — a never-connected or disconnected socket id, or a
non-string value — reaches nobody; the primitive reports no error. -/
def roomRecipients (rooms : List (String × List String)) (target : JSVal) : List String :=
  match target with
  | JSVal.strV t => (mapGet rooms t).getD []
  | _ => []

/-- The server state visible to the `room:join` handler: the presence
directory and the adapter's room membership. -/
structure ServerState : Type where
  dir : DirState
  rooms : List (String × List String)
deriving Repr

/-- The member list the `room:join` handler snapshots (lines 50-51): the
room's members after any evicted socket has been dropped from its rooms by
its forced disconnect, and before `socket.join(room)`. -/
def joinSnapshot (st : ServerState) (sid email room : String) : List String :=
  (mapGet ((joinDir st.dir sid email).2.foldl roomsRemove st.rooms) room).getD []

/-- The `room:join` handler (lines 31-71) for socket `sid` with payload
fields `email` and `room` (strings, per the data model; the `!email ||
!room` check is then the empty-string test).  On a valid payload it:
updates the directory (evicting a previous socket of the same identity,
lines 40-48); snapshots the room's members (lines 50-51); joins the room
(line 53); broadcasts one `user:joined` to the room (line 56); sends the
new joiner one direct `user:joined` per snapshot member other than itself,
with that member's identity looked up in `socketIdToEmailMap` (lines
59-64); and echoes the join payload back (line 66).  Returns the new
state, the emissions in program order, and the sockets whose termination
was requested. -/
def roomJoin (st : ServerState) (sid email room : String) :
    ServerState × List Emit × List String :=
  if email = "" ∨ room = "" then
    (st, [Emit.direct sid "error" (JSVal.objV [("message", JSVal.strV "Invalid room join data")])],
      [])
  else
    let p := joinDir st.dir sid email
    let rooms1 := p.2.foldl roomsRemove st.rooms
    let existing := (mapGet rooms1 room).getD []
    let rooms2 := roomInsert rooms1 room sid
    (⟨p.1, rooms2⟩,
      Emit.addressed (JSVal.strV room) "user:joined"
          (JSVal.objV [("email", JSVal.strV email), ("id", JSVal.strV sid)])
        :: (existing.filter (fun x => x ≠ sid)).map (fun ex =>
            Emit.direct sid "user:joined"
              (JSVal.objV [("email", optStr (mapGet p.1.rev ex)), ("id", JSVal.strV ex)]))
        ++ [Emit.direct sid "room:join"
            (JSVal.objV [("email", JSVal.strV email), ("room", JSVal.strV room)])],
      p.2)

/-- Read a field of a destructured message object; an absent field is
`undefined`. -/
def getField (fields : List (String × JSVal)) (k : String) : JSVal :=
  match mapGet fields k with
  | some v => v
  | none => JSVal.undef

/-- The shape shared by the four relay handlers: the event forwarded, the
name of the payload field (`offer` or `ans`), and the error message. -/
structure RelayCfg : Type where
  outEvent : String
  payloadKey : String
  errMsg : String

/-- The try/catch body shared by the four relay handlers (e.g. lines
75-81); `tgt` is the message's `to` field and `pay` its payload field.
If either is falsy, the thrown error is caught and one `error` notice
goes back to the sender; otherwise one event is emitted to `io.to(to)`
carrying `from: socket.id` and the payload field unchanged. -/
def relayBody (cfg : RelayCfg) (sid : String) (tgt pay : JSVal) : List Emit :=
  if truthy tgt && truthy pay then
    [Emit.addressed tgt cfg.outEvent
      (JSVal.objV [("from", JSVal.strV sid), (cfg.payloadKey, pay)])]
  else
    [Emit.direct sid "error" (JSVal.objV [("message", JSVal.strV cfg.errMsg)])]

/-- A relay handler applied to the raw message value.  The parameter-list
destructuring `({ to, offer })` happens before the try block: on `null` or
`undefined` it throws a TypeError that no handler code catches, modelled
as `Except.error ()`; on a non-null primitive the fields are `undefined`;
on an object the fields are read from it. -/
def relayHandler (cfg : RelayCfg) (sid : String) (msg : JSVal) : Except Unit (List Emit) :=
  match msg with
  | JSVal.undef => Except.error ()
  | JSVal.nullV => Except.error ()
  | JSVal.objV fields =>
    Except.ok (relayBody cfg sid (getField fields "to") (getField fields cfg.payloadKey))
  | _ => Except.ok (relayBody cfg sid JSVal.undef JSVal.undef)

/-- Shape of the `user:call` handler (lines 74-82). -/
def userCallCfg : RelayCfg := ⟨"incoming:call", "offer", "Invalid call attempt"⟩

/-- Shape of the `call:accepted` handler (lines 84-92). -/
def callAcceptedCfg : RelayCfg := ⟨"call:accepted", "ans", "Invalid call acceptance"⟩

/-- Shape of the `peer:nego:needed` handler (lines 94-103). -/
def peerNegoNeededCfg : RelayCfg := ⟨"peer:nego:needed", "offer", "Invalid negotiation attempt"⟩

/-- Shape of the `peer:nego:done` handler (lines 105-114). -/
def peerNegoDoneCfg : RelayCfg := ⟨"peer:nego:final", "ans", "Invalid negotiation completion"⟩

/-- The `user:call` handler. -/
def userCall : String → JSVal → Except Unit (List Emit) := relayHandler userCallCfg

/-- The `call:accepted` handler. -/
def callAccepted : String → JSVal → Except Unit (List Emit) := relayHandler callAcceptedCfg

/-- The `peer:nego:needed` handler. -/
def peerNegoNeeded : String → JSVal → Except Unit (List Emit) := relayHandler peerNegoNeededCfg

/-- The `peer:nego:done` handler. -/
def peerNegoDone : String → JSVal → Except Unit (List Emit) := relayHandler peerNegoDoneCfg

/- ------------------------------------------------------------------ -/
/- Theorems.                                                          -/
/- ------------------------------------------------------------------ -/

theorem mapGet_mapDelete {β : Type} (m : List (String × β)) (k k' : String) :
    mapGet (mapDelete m k) k' = if k' = k then none else mapGet m k' := by
  induction m with
  | nil => simp [mapDelete, mapGet]
  | cons p rest ih =>
    obtain ⟨a, b⟩ := p
    by_cases hka : k = a
    · subst hka
      by_cases hk' : k' = k
      · subst hk'; simp [mapDelete, mapGet, ih]
      · simp [mapDelete, mapGet, hk', ih]
    · by_cases hk'a : k' = a
      · subst hk'a
        simp [mapDelete, mapGet, hka, Ne.symm hka, ih]
      · simp [mapDelete, mapGet, hka, hk'a, ih]

theorem mapGet_mapSet {β : Type} (m : List (String × β)) (k k' : String) (v : β) :
    mapGet (mapSet m k v) k' = if k' = k then some v else mapGet m k' := by
  by_cases h : k' = k
  · subst h; simp [mapSet, mapGet]
  · simp [mapSet, mapGet, h, mapGet_mapDelete]

theorem invDir_initDir : InvDir initDir := by
  intro e h
  simp [initDir, mapGet]

/-- Disconnecting a socket with no reverse entry leaves the maps untouched
(the `if (email)` guard in the `disconnect` handler). -/
theorem disconnectDir_not_registered (st : DirState) (sid : String)
    (h : mapGet st.rev sid = none) : disconnectDir st sid = st := by
  simp [disconnectDir, h]

/-- Disconnecting a registered socket deletes both directions. -/
theorem disconnectDir_registered (st : DirState) (sid email : String)
    (h : mapGet st.rev sid = some email) :
    disconnectDir st sid = ⟨mapDelete st.fwd email, mapDelete st.rev sid⟩ := by
  simp [disconnectDir, h]

/-- Joining under a fresh identity only inserts the two bindings. -/
theorem joinDir_fresh (st : DirState) (sid email : String)
    (hfwd : mapGet st.fwd email = none) :
    joinDir st sid email = (⟨mapSet st.fwd email sid, mapSet st.rev sid email⟩, []) := by
  simp [joinDir, hfwd]

/-- Re-joining under an identity the socket already holds re-inserts the
two bindings and evicts nothing. -/
theorem joinDir_same (st : DirState) (sid email : String)
    (hfwd : mapGet st.fwd email = some sid) :
    joinDir st sid email = (⟨mapSet st.fwd email sid, mapSet st.rev sid email⟩, []) := by
  simp [joinDir, hfwd]

/-- Joining under an identity held by a different socket `old` deletes
`old`'s reverse entry, requests `old`'s termination (whose synchronously
fired disconnect cleanup is a no-op, the reverse entry being gone), and
inserts the two new bindings. -/
theorem joinDir_evict (st : DirState) (sid email old : String)
    (hfwd : mapGet st.fwd email = some old) (hos : ¬old = sid) :
    joinDir st sid email =
      (⟨mapSet st.fwd email sid, mapSet (mapDelete st.rev old) sid email⟩, [old]) := by
  have hno : mapGet (mapDelete st.rev old) old = none := by
    rw [mapGet_mapDelete]
    simp
  simp only [joinDir, hfwd, if_neg hos, disconnectDir_not_registered ⟨st.fwd, mapDelete st.rev old⟩
    old hno]

/-- A benign join preserves the mutual-inverse property of the two maps. -/
theorem invDir_joinDir (st : DirState) (sid email : String) (hinv : InvDir st)
    (hgood : mapGet st.rev sid = none ∨ mapGet st.rev sid = some email) :
    InvDir (joinDir st sid email).1 := by
  cases hfwd : mapGet st.fwd email with
  | none =>
    have hrs : mapGet st.rev sid = none := by
      rcases hgood with hg | hg
      · exact hg
      · have hx := (hinv email sid).mpr hg
        rw [hfwd] at hx
        cases hx
    intro e h
    rw [joinDir_fresh st sid email hfwd]
    simp only [mapGet_mapSet]
    by_cases he : e = email
    · by_cases hh : h = sid
      · rw [if_pos he, if_pos hh]
        constructor
        · intro _; rw [he]
        · intro _; rw [hh]
      · rw [if_pos he, if_neg hh]
        constructor
        · intro hx
          injection hx with hx
          exact absurd hx.symm hh
        · intro hx
          have hy := (hinv e h).mpr hx
          rw [he, hfwd] at hy
          cases hy
    · by_cases hh : h = sid
      · rw [if_neg he, if_pos hh]
        constructor
        · intro hx
          have hy := (hinv e h).mp hx
          rw [hh, hrs] at hy
          cases hy
        · intro hx
          injection hx with hx
          exact absurd hx.symm he
      · rw [if_neg he, if_neg hh]
        exact hinv e h
  | some old =>
    by_cases hos : old = sid
    · rw [hos] at hfwd
      have hrs : mapGet st.rev sid = some email := (hinv email sid).mp hfwd
      intro e h
      rw [joinDir_same st sid email hfwd]
      simp only [mapGet_mapSet]
      by_cases he : e = email
      · by_cases hh : h = sid
        · rw [if_pos he, if_pos hh]
          constructor
          · intro _; rw [he]
          · intro _; rw [hh]
        · rw [if_pos he, if_neg hh]
          constructor
          · intro hx
            injection hx with hx
            exact absurd hx.symm hh
          · intro hx
            have hy := (hinv e h).mpr hx
            rw [he, hfwd] at hy
            injection hy with hy
            exact absurd hy.symm hh
      · by_cases hh : h = sid
        · rw [if_neg he, if_pos hh]
          constructor
          · intro hx
            have hy := (hinv e h).mp hx
            rw [hh, hrs] at hy
            injection hy with hy
            exact absurd hy.symm he
          · intro hx
            injection hx with hx
            exact absurd hx.symm he
        · rw [if_neg he, if_neg hh]
          exact hinv e h
    · -- eviction: `email` is bound to a different live socket `old`
      have hrold : mapGet st.rev old = some email := (hinv email old).mp hfwd
      have hrs : mapGet st.rev sid = none := by
        rcases hgood with hg | hg
        · exact hg
        · have hx := (hinv email sid).mpr hg
          rw [hfwd] at hx
          injection hx with hx
          exact absurd hx hos
      intro e h
      rw [joinDir_evict st sid email old hfwd hos]
      simp only [mapGet_mapSet, mapGet_mapDelete]
      by_cases he : e = email
      · by_cases hh : h = sid
        · rw [if_pos he, if_pos hh]
          constructor
          · intro _; rw [he]
          · intro _; rw [hh]
        · rw [if_pos he, if_neg hh]
          constructor
          · intro hx
            injection hx with hx
            exact absurd hx.symm hh
          · intro hx
            by_cases hho : h = old
            · rw [if_pos hho] at hx
              cases hx
            · rw [if_neg hho] at hx
              have hy := (hinv e h).mpr hx
              rw [he, hfwd] at hy
              injection hy with hy
              exact absurd hy.symm hho
      · by_cases hh : h = sid
        · rw [if_neg he, if_pos hh]
          constructor
          · intro hx
            have hy := (hinv e h).mp hx
            rw [hh, hrs] at hy
            cases hy
          · intro hx
            injection hx with hx
            exact absurd hx.symm he
        · rw [if_neg he, if_neg hh]
          by_cases hho : h = old
          · rw [if_pos hho]
            constructor
            · intro hx
              have hy := (hinv e h).mp hx
              rw [hho, hrold] at hy
              injection hy with hy
              exact absurd hy.symm he
            · intro hx
              cases hx
          · rw [if_neg hho]
            exact hinv e h

/-- The disconnect cleanup preserves the mutual-inverse property. -/
theorem invDir_disconnectDir (st : DirState) (sid : String) (hinv : InvDir st) :
    InvDir (disconnectDir st sid) := by
  cases hrev : mapGet st.rev sid with
  | none => rw [disconnectDir_not_registered st sid hrev]; exact hinv
  | some email =>
    have hfe : mapGet st.fwd email = some sid := (hinv email sid).mpr hrev
    intro e h
    rw [disconnectDir_registered st sid email hrev]
    simp only [mapGet_mapDelete]
    by_cases he : e = email
    · rw [if_pos he]
      constructor
      · intro hx
        cases hx
      · intro hx
        by_cases hh : h = sid
        · rw [if_pos hh] at hx
          cases hx
        · rw [if_neg hh] at hx
          have hy := (hinv e h).mpr hx
          rw [he, hfe] at hy
          injection hy with hy
          exact absurd hy.symm hh
    · rw [if_neg he]
      by_cases hh : h = sid
      · rw [if_pos hh]
        constructor
        · intro hx
          have hy := (hinv e h).mp hx
          rw [hh, hrev] at hy
          injection hy with hy
          exact absurd hy.symm he
        · intro hx
          cases hx
      · rw [if_neg hh]
        exact hinv e h

/-- One benign step preserves the mutual-inverse property. -/
theorem invDir_dirStep (st : DirState) (e : DirEvent) (hinv : InvDir st)
    (hg : goodStepB st e = true) : InvDir (dirStep st e) := by
  cases e with
  | join sid email =>
    refine invDir_joinDir st sid email hinv ?_
    revert hg
    simp only [goodStepB]
    cases hrev : mapGet st.rev sid with
    | none => intro _; exact Or.inl rfl
    | some e' =>
      intro hg
      simp only [beq_iff_eq] at hg
      exact Or.inr (by rw [hg])
  | disconnect sid => exact invDir_disconnectDir st sid hinv

/-- A benign trace preserves the mutual-inverse property. -/
theorem invDir_dirRun (evs : List DirEvent) (st : DirState) (hinv : InvDir st)
    (hg : goodRunB st evs = true) : InvDir (dirRun st evs) := by
  induction evs generalizing st with
  | nil => exact hinv
  | cons e rest ih =>
    simp only [goodRunB, Bool.and_eq_true] at hg
    exact ih (dirStep st e) (invDir_dirStep st e hinv hg.1) hg.2

/-- A benign trace from the empty initial state yields mutually inverse
maps. -/
theorem invDir_of_goodRun (evs : List DirEvent) (hg : goodRunB initDir evs = true) :
    InvDir (dirRun initDir evs) :=
  invDir_dirRun evs initDir invDir_initDir hg

/-- Claim C1, counterexample.  Socket "A" sends `room:join` as identity
"i" and then again as identity "j": the handler never cleans the first
forward entry, so afterwards `emailToSocketIdMap` maps "i" to "A" while
`socketIdToEmailMap` maps "A" to "j" — the two maps are not mutual
inverses, and handle "A" is reached from two identities at once. -/
theorem presence_inverse_violated_by_identity_switch :
    ¬ InvDir (dirRun initDir [DirEvent.join "A" "i", DirEvent.join "A" "j"]) := by
  intro hinv
  have h1 : mapGet (dirRun initDir [DirEvent.join "A" "i", DirEvent.join "A" "j"]).fwd "i" =
      some "A" := by decide
  have h2 := (hinv "i" "A").mp h1
  have h3 : mapGet (dirRun initDir [DirEvent.join "A" "i", DirEvent.join "A" "j"]).rev "A" =
      some "j" := by decide
  have h4 : some "i" = some "j" := h2.symm.trans h3
  exact absurd h4 (by decide)

/-- Claim C1 (amended): for every sequence of `room:join` and `disconnect`
events from the empty initial state in which no socket issues a
`room:join` while currently registered under a different identity, after
every handler completes the two presence maps are mutual inverses,
every identity maps to at most one handle, and every handle is mapped to
by at most one identity. -/
theorem presence_inverse_of_good_traces (evs : List DirEvent)
    (hg : goodRunB initDir evs = true) :
    InvDir (dirRun initDir evs) ∧
      (∀ e h1 h2 : String, mapGet (dirRun initDir evs).fwd e = some h1 →
        mapGet (dirRun initDir evs).fwd e = some h2 → h1 = h2) ∧
      (∀ e1 e2 h : String, mapGet (dirRun initDir evs).fwd e1 = some h →
        mapGet (dirRun initDir evs).fwd e2 = some h → e1 = e2) := by
  have hinv := invDir_of_goodRun evs hg
  refine ⟨hinv, ?_, ?_⟩
  · intro e h1 h2 hx hy
    rw [hx] at hy
    injection hy
  · intro e1 e2 h hx hy
    have hz := (hinv e1 h).mp hx
    have hw := (hinv e2 h).mp hy
    rw [hz] at hw
    exact Option.some.inj hw

/-- Witness for the amended claim C1, at a concrete benign trace. -/
theorem presence_inverse_of_good_traces_witness :
    goodRunB initDir [DirEvent.join "A" "a", DirEvent.join "B" "b",
      DirEvent.disconnect "A", DirEvent.join "C" "a"] = true ∧
    InvDir (dirRun initDir [DirEvent.join "A" "a", DirEvent.join "B" "b",
      DirEvent.disconnect "A", DirEvent.join "C" "a"]) :=
  ⟨by decide, (presence_inverse_of_good_traces _ (by decide)).1⟩

/-- Claim C2, counterexample.  Socket "A" joins as identity "j", then as
identity "i" (no cleanup of "j"'s forward entry), so identity "i" is held
by live socket "A"; when socket "B" then joins as "i", the handler does
request "A"'s termination and maps "i" to "B" and "B" to "i", but the
stale forward entry "j" to "A" survives — a directory entry for "A"
remains, contradicting "no directory entry for A in either direction". -/
theorem eviction_leaves_stale_entry_for_old_handle :
    mapGet (dirRun initDir [DirEvent.join "A" "j", DirEvent.join "A" "i"]).fwd "i" =
      some "A" ∧
    (joinDir (dirRun initDir [DirEvent.join "A" "j", DirEvent.join "A" "i"]) "B" "i").2 =
      ["A"] ∧
    mapGet (joinDir (dirRun initDir [DirEvent.join "A" "j", DirEvent.join "A" "i"])
      "B" "i").1.fwd "j" = some "A" := by
  refine ⟨by decide, by decide, by decide⟩

/-- Claim C2 (amended): from a state reached by a benign trace (no socket
re-registering under a second identity — in particular the maps are
mutually inverse), if identity `i` maps to live handle `a` and a join for
`i` arrives from a different handle `b`, then the handler requests exactly
the forced termination of `a`, and afterwards the directory maps `i` to
`b` and `b` to `i`, with no entry for `a` in either map. -/
theorem eviction_replaces_mapping (evs : List DirEvent) (i a b : String)
    (hg : goodRunB initDir evs = true)
    (ha : mapGet (dirRun initDir evs).fwd i = some a)
    (hab : ¬a = b) :
    (joinDir (dirRun initDir evs) b i).2 = [a] ∧
    mapGet (joinDir (dirRun initDir evs) b i).1.fwd i = some b ∧
    mapGet (joinDir (dirRun initDir evs) b i).1.rev b = some i ∧
    mapGet (joinDir (dirRun initDir evs) b i).1.rev a = none ∧
    (∀ e : String, ¬mapGet (joinDir (dirRun initDir evs) b i).1.fwd e = some a) := by
  have hinv := invDir_of_goodRun evs hg
  have hrola : mapGet (dirRun initDir evs).rev a = some i := (hinv i a).mp ha
  rw [joinDir_evict (dirRun initDir evs) b i a ha hab]
  refine ⟨rfl, ?_, ?_, ?_, ?_⟩
  · rw [mapGet_mapSet, if_pos rfl]
  · rw [mapGet_mapSet, if_pos rfl]
  · rw [mapGet_mapSet, if_neg hab, mapGet_mapDelete, if_pos rfl]
  · intro e hx
    rw [mapGet_mapSet] at hx
    by_cases he : e = i
    · rw [if_pos he] at hx
      injection hx with hx
      exact absurd hx.symm hab
    · rw [if_neg he] at hx
      have hy := (hinv e a).mp hx
      rw [hrola] at hy
      injection hy with hy
      exact absurd hy.symm he

/-- Witness for the amended claim C2: identity "i" joins from "A", then
from "B"; "A" is evicted and the directory holds exactly the new pair. -/
theorem eviction_replaces_mapping_witness :
    goodRunB initDir [DirEvent.join "A" "i"] = true ∧
    mapGet (dirRun initDir [DirEvent.join "A" "i"]).fwd "i" = some "A" ∧
    (joinDir (dirRun initDir [DirEvent.join "A" "i"]) "B" "i").2 = ["A"] ∧
    mapGet (joinDir (dirRun initDir [DirEvent.join "A" "i"]) "B" "i").1.fwd "i" = some "B" ∧
    mapGet (joinDir (dirRun initDir [DirEvent.join "A" "i"]) "B" "i").1.rev "B" = some "i" ∧
    mapGet (joinDir (dirRun initDir [DirEvent.join "A" "i"]) "B" "i").1.rev "A" = none := by
  have h := eviction_replaces_mapping [DirEvent.join "A" "i"] "i" "A" "B"
    (by decide) (by decide) (by decide)
  exact ⟨by decide, by decide, h.1, h.2.1, h.2.2.1, h.2.2.2.1⟩

/-- Claim C6: processing a `disconnect` for a handle absent from the
directory raises nothing (the handler body is total: `Map.get` of an
absent key is `undefined`, which skips the cleanup branch), emits nothing,
and leaves both maps exactly unchanged. -/
theorem disconnect_unregistered_noop (st : DirState) (sid : String)
    (h : mapGet st.rev sid = none) :
    disconnectHandler st sid = (st, []) := by
  simp only [disconnectHandler, disconnectDir_not_registered st sid h]

/-- Witness for claim C6 at a concrete state: "B" never joined. -/
theorem disconnect_unregistered_noop_witness :
    mapGet (DirState.mk [("a", "A")] [("A", "a")]).rev "B" = none ∧
    disconnectHandler ⟨[("a", "A")], [("A", "a")]⟩ "B" = (⟨[("a", "A")], [("A", "a")]⟩, []) :=
  ⟨by decide, disconnect_unregistered_noop ⟨[("a", "A")], [("A", "a")]⟩ "B" (by decide)⟩

/-- Claim C10: during eviction the displaced handle's reverse entry is
deleted (line 42) before its termination is requested (line 43), so the
disconnect cleanup fired for the old handle `a` resolves no identity and
cannot remove the fresh bindings: after the evicting join the old handle
has no reverse entry, its disconnect is a no-op, and the new joiner's
entries survive it. -/
theorem eviction_ordering_protects_new_mapping (st : DirState) (i a b : String)
    (ha : mapGet st.fwd i = some a) (hab : ¬a = b) :
    mapGet (joinDir st b i).1.rev a = none ∧
    disconnectDir (joinDir st b i).1 a = (joinDir st b i).1 ∧
    mapGet (disconnectDir (joinDir st b i).1 a).fwd i = some b ∧
    mapGet (disconnectDir (joinDir st b i).1 a).rev b = some i := by
  have hra : mapGet (joinDir st b i).1.rev a = none := by
    rw [joinDir_evict st b i a ha hab]
    rw [mapGet_mapSet, if_neg hab, mapGet_mapDelete, if_pos rfl]
  have hd : disconnectDir (joinDir st b i).1 a = (joinDir st b i).1 :=
    disconnectDir_not_registered _ a hra
  refine ⟨hra, hd, ?_, ?_⟩
  · rw [hd, joinDir_evict st b i a ha hab, mapGet_mapSet, if_pos rfl]
  · rw [hd, joinDir_evict st b i a ha hab, mapGet_mapSet, if_pos rfl]

/-- Witness for claim C10: "i" held by "A"; "B" joins as "i"; a later
disconnect event for "A" leaves the new entries in place. -/
theorem eviction_ordering_protects_new_mapping_witness :
    mapGet (DirState.mk [("i", "A")] [("A", "i")]).fwd "i" = some "A" ∧
    mapGet (joinDir ⟨[("i", "A")], [("A", "i")]⟩ "B" "i").1.rev "A" = none ∧
    disconnectDir (joinDir ⟨[("i", "A")], [("A", "i")]⟩ "B" "i").1 "A" =
      (joinDir ⟨[("i", "A")], [("A", "i")]⟩ "B" "i").1 :=
  ⟨by decide,
    (eviction_ordering_protects_new_mapping ⟨[("i", "A")], [("A", "i")]⟩ "i" "A" "B"
      (by decide) (by decide)).1,
    (eviction_ordering_protects_new_mapping ⟨[("i", "A")], [("A", "i")]⟩ "i" "A" "B"
      (by decide) (by decide)).2.1⟩

/-- After `socket.join(room)` the socket is a member of the room. -/
theorem roomInsert_mem (rooms : List (String × List String)) (room sid : String) :
    sid ∈ (mapGet (roomInsert rooms room sid) room).getD [] := by
  cases hm : mapGet rooms room with
  | some ms =>
    simp only [roomInsert, hm]
    by_cases hin : sid ∈ ms
    · rw [if_pos hin, hm]
      exact hin
    · rw [if_neg hin, mapGet_mapSet, if_pos rfl]
      simp
  | none =>
    simp only [roomInsert, hm, mapGet_mapSet, if_pos rfl]
    simp

/-- The `room:join` handler on a valid payload, as one equation: directory
update, room snapshot (after any eviction), join, and the emission list. -/
theorem roomJoin_valid (st : ServerState) (sid email room : String)
    (hcond : ¬(email = "" ∨ room = "")) :
    roomJoin st sid email room =
      (⟨(joinDir st.dir sid email).1,
         roomInsert ((joinDir st.dir sid email).2.foldl roomsRemove st.rooms) room sid⟩,
       Emit.addressed (JSVal.strV room) "user:joined"
           (JSVal.objV [("email", JSVal.strV email), ("id", JSVal.strV sid)])
         :: ((joinSnapshot st sid email room).filter (fun x => x ≠ sid)).map (fun ex =>
             Emit.direct sid "user:joined"
               (JSVal.objV [("email", optStr (mapGet (joinDir st.dir sid email).1.rev ex)),
                 ("id", JSVal.strV ex)]))
         ++ [Emit.direct sid "room:join"
             (JSVal.objV [("email", JSVal.strV email), ("room", JSVal.strV room)])],
       (joinDir st.dir sid email).2) := by
  simp only [roomJoin, joinSnapshot, if_neg hcond]

/-- Claim C3: on a valid `room:join` (identity and room non-empty) by a
socket not already in the room, the handler emits, in this order: exactly
one broadcast of `user:joined` with the joiner's identity and handle to
the room; one direct `user:joined` to the joiner per member of the
pre-join snapshot, carrying that member's identity as resolved through
`socketIdToEmailMap` and its handle; and one direct echo of the join
payload to the joiner.  The snapshot is taken before the join, and the
joiner is a member of the room when the broadcast is addressed to it. -/
theorem roomJoin_emission_sequence (st : ServerState) (sid email room : String)
    (he : ¬email = "") (hr : ¬room = "")
    (hnotin : ¬sid ∈ joinSnapshot st sid email room) :
    (roomJoin st sid email room).2.1 =
      Emit.addressed (JSVal.strV room) "user:joined"
          (JSVal.objV [("email", JSVal.strV email), ("id", JSVal.strV sid)])
        :: (joinSnapshot st sid email room).map (fun ex =>
            Emit.direct sid "user:joined"
              (JSVal.objV [("email", optStr (mapGet (joinDir st.dir sid email).1.rev ex)),
                ("id", JSVal.strV ex)]))
        ++ [Emit.direct sid "room:join"
            (JSVal.objV [("email", JSVal.strV email), ("room", JSVal.strV room)])] ∧
    sid ∈ roomRecipients (roomJoin st sid email room).1.rooms (JSVal.strV room) := by
  have hcond : ¬(email = "" ∨ room = "") := fun hc => hc.elim he hr
  have hfilter : (joinSnapshot st sid email room).filter (fun x => x ≠ sid) =
      joinSnapshot st sid email room := by
    rw [List.filter_eq_self]
    intro a ha
    simp only [ne_eq, decide_not, Bool.not_true, Bool.not_eq_eq_eq_not, decide_eq_false_iff_not]
    intro heq
    exact hnotin (heq ▸ ha)
  rw [roomJoin_valid st sid email room hcond]
  constructor
  · rw [hfilter]
  · exact roomInsert_mem _ room sid

/-- Witness for claim C3: room "r1" holds member "M" (identity "m");
socket "B" joins as "b". -/
theorem roomJoin_emission_sequence_witness :
    ¬("b" : String) = "" ∧ ¬("r1" : String) = "" ∧
    ¬"B" ∈ joinSnapshot ⟨⟨[("m", "M")], [("M", "m")]⟩, [("r1", ["M"])]⟩ "B" "b" "r1" ∧
    "B" ∈ roomRecipients
      (roomJoin ⟨⟨[("m", "M")], [("M", "m")]⟩, [("r1", ["M"])]⟩ "B" "b" "r1").1.rooms
      (JSVal.strV "r1") :=
  ⟨by decide, by decide, by decide,
    (roomJoin_emission_sequence ⟨⟨[("m", "M")], [("M", "m")]⟩, [("r1", ["M"])]⟩ "B" "b" "r1"
      (by decide) (by decide) (by decide)).2⟩

/-- A relay handler whose message object misses `to` or its payload field
emits exactly one `error` notice to the sender and forwards nothing. -/
theorem relayHandler_missing (cfg : RelayCfg) (sid : String)
    (fields : List (String × JSVal))
    (h : mapGet fields "to" = none ∨ mapGet fields cfg.payloadKey = none) :
    relayHandler cfg sid (JSVal.objV fields) =
      Except.ok [Emit.direct sid "error"
        (JSVal.objV [("message", JSVal.strV cfg.errMsg)])] := by
  rcases h with h | h <;> simp [relayHandler, relayBody, getField, h, truthy]

/-- A relay handler whose `to` and payload fields are both truthy emits
exactly one forwarded event to `io.to(to)`, with `from` set to the
sender's socket id and the payload passed through unchanged. -/
theorem relayHandler_forwards (cfg : RelayCfg) (sid : String)
    (fields : List (String × JSVal))
    (ht : truthy (getField fields "to") = true)
    (hp : truthy (getField fields cfg.payloadKey) = true) :
    relayHandler cfg sid (JSVal.objV fields) =
      Except.ok [Emit.addressed (getField fields "to") cfg.outEvent
        (JSVal.objV [("from", JSVal.strV sid),
          (cfg.payloadKey, getField fields cfg.payloadKey)])] := by
  simp [relayHandler, relayBody, ht, hp]

/-- Claim C4: for each of the four negotiation handlers, a message object
missing its `to` field or its payload field (`offer` or `ans`) produces
exactly one `error` notice to the sender and no forwarded event; the
handlers read no server state, so none changes, and the thrown error is
caught inside the handler, so the sender's connection stays open. -/
theorem relay_missing_field_single_error (sid : String)
    (fields : List (String × JSVal)) :
    (mapGet fields "to" = none ∨ mapGet fields "offer" = none →
      userCall sid (JSVal.objV fields) = Except.ok [Emit.direct sid "error"
        (JSVal.objV [("message", JSVal.strV "Invalid call attempt")])]) ∧
    (mapGet fields "to" = none ∨ mapGet fields "ans" = none →
      callAccepted sid (JSVal.objV fields) = Except.ok [Emit.direct sid "error"
        (JSVal.objV [("message", JSVal.strV "Invalid call acceptance")])]) ∧
    (mapGet fields "to" = none ∨ mapGet fields "offer" = none →
      peerNegoNeeded sid (JSVal.objV fields) = Except.ok [Emit.direct sid "error"
        (JSVal.objV [("message", JSVal.strV "Invalid negotiation attempt")])]) ∧
    (mapGet fields "to" = none ∨ mapGet fields "ans" = none →
      peerNegoDone sid (JSVal.objV fields) = Except.ok [Emit.direct sid "error"
        (JSVal.objV [("message", JSVal.strV "Invalid negotiation completion")])]) :=
  ⟨fun h => relayHandler_missing userCallCfg sid fields h,
   fun h => relayHandler_missing callAcceptedCfg sid fields h,
   fun h => relayHandler_missing peerNegoNeededCfg sid fields h,
   fun h => relayHandler_missing peerNegoDoneCfg sid fields h⟩

/-- Witness for claim C4: a message with a target but no payload field. -/
theorem relay_missing_field_single_error_witness :
    userCall "A" (JSVal.objV [("to", JSVal.strV "B")]) =
      Except.ok [Emit.direct "A" "error"
        (JSVal.objV [("message", JSVal.strV "Invalid call attempt")])] ∧
    callAccepted "A" (JSVal.objV [("to", JSVal.strV "B")]) =
      Except.ok [Emit.direct "A" "error"
        (JSVal.objV [("message", JSVal.strV "Invalid call acceptance")])] ∧
    peerNegoNeeded "A" (JSVal.objV [("to", JSVal.strV "B")]) =
      Except.ok [Emit.direct "A" "error"
        (JSVal.objV [("message", JSVal.strV "Invalid negotiation attempt")])] ∧
    peerNegoDone "A" (JSVal.objV [("to", JSVal.strV "B")]) =
      Except.ok [Emit.direct "A" "error"
        (JSVal.objV [("message", JSVal.strV "Invalid negotiation completion")])] :=
  ⟨(relay_missing_field_single_error "A" [("to", JSVal.strV "B")]).1 (Or.inr rfl),
   (relay_missing_field_single_error "A" [("to", JSVal.strV "B")]).2.1 (Or.inr rfl),
   (relay_missing_field_single_error "A" [("to", JSVal.strV "B")]).2.2.1 (Or.inr rfl),
   (relay_missing_field_single_error "A" [("to", JSVal.strV "B")]).2.2.2 (Or.inr rfl)⟩

/-- Claim C5: for each of the four relays, a message whose `to` and
payload fields are both present and truthy yields exactly one forwarded
event to the target, carrying `from` equal to the delivering connection's
socket id — the statement holds for every field list, so in particular a
`from` field inside the message is ignored — and the payload unchanged. -/
theorem relay_forwards_from_sender (sid : String) (fields : List (String × JSVal)) :
    (truthy (getField fields "to") = true → truthy (getField fields "offer") = true →
      userCall sid (JSVal.objV fields) =
        Except.ok [Emit.addressed (getField fields "to") "incoming:call"
          (JSVal.objV [("from", JSVal.strV sid), ("offer", getField fields "offer")])]) ∧
    (truthy (getField fields "to") = true → truthy (getField fields "ans") = true →
      callAccepted sid (JSVal.objV fields) =
        Except.ok [Emit.addressed (getField fields "to") "call:accepted"
          (JSVal.objV [("from", JSVal.strV sid), ("ans", getField fields "ans")])]) ∧
    (truthy (getField fields "to") = true → truthy (getField fields "offer") = true →
      peerNegoNeeded sid (JSVal.objV fields) =
        Except.ok [Emit.addressed (getField fields "to") "peer:nego:needed"
          (JSVal.objV [("from", JSVal.strV sid), ("offer", getField fields "offer")])]) ∧
    (truthy (getField fields "to") = true → truthy (getField fields "ans") = true →
      peerNegoDone sid (JSVal.objV fields) =
        Except.ok [Emit.addressed (getField fields "to") "peer:nego:final"
          (JSVal.objV [("from", JSVal.strV sid), ("ans", getField fields "ans")])]) :=
  ⟨fun ht hp => relayHandler_forwards userCallCfg sid fields ht hp,
   fun ht hp => relayHandler_forwards callAcceptedCfg sid fields ht hp,
   fun ht hp => relayHandler_forwards peerNegoNeededCfg sid fields ht hp,
   fun ht hp => relayHandler_forwards peerNegoDoneCfg sid fields ht hp⟩

/-- Witness for claim C5: the message even carries a forged `from` field,
which the handler ignores in favour of the sender's socket id "A". -/
theorem relay_forwards_from_sender_witness :
    userCall "A" (JSVal.objV
        [("to", JSVal.strV "B"), ("offer", JSVal.strV "o1"), ("from", JSVal.strV "EVIL")]) =
      Except.ok [Emit.addressed (JSVal.strV "B") "incoming:call"
        (JSVal.objV [("from", JSVal.strV "A"), ("offer", JSVal.strV "o1")])] ∧
    peerNegoDone "A" (JSVal.objV
        [("to", JSVal.strV "B"), ("ans", JSVal.strV "a1"), ("from", JSVal.strV "EVIL")]) =
      Except.ok [Emit.addressed (JSVal.strV "B") "peer:nego:final"
        (JSVal.objV [("from", JSVal.strV "A"), ("ans", JSVal.strV "a1")])] :=
  ⟨(relay_forwards_from_sender "A"
      [("to", JSVal.strV "B"), ("offer", JSVal.strV "o1"), ("from", JSVal.strV "EVIL")]).1
      (by decide) (by decide),
   (relay_forwards_from_sender "A"
      [("to", JSVal.strV "B"), ("ans", JSVal.strV "a1"), ("from", JSVal.strV "EVIL")]).2.2.2
      (by decide) (by decide)⟩

/-- Claim C7, counterexample.  The payload field is present — `offer` is
the empty string — yet `user:call` rejects the message with an error
notice instead of relaying it, because the guard `if (!to || !offer)`
tests JS truthiness, not presence. -/
theorem falsy_payload_rejected_despite_presence :
    mapGet [("to", JSVal.strV "B"), ("offer", JSVal.strV "")] "offer" =
      some (JSVal.strV "") ∧
    userCall "A" (JSVal.objV [("to", JSVal.strV "B"), ("offer", JSVal.strV "")]) =
      Except.ok [Emit.direct "A" "error"
        (JSVal.objV [("message", JSVal.strV "Invalid call attempt")])] :=
  ⟨rfl, rfl⟩

/-- Claim C7 (amended): the relay handlers validate `to` and the payload
field for truthiness, not mere presence.  A truthy payload of any shape is
forwarded unchanged with no further inspection; a present but falsy
payload (empty string, `0`, `false`, `null`) is rejected with the same
single error notice as a missing one.  Stated for the shared handler body,
which all four handlers instantiate. -/
theorem relay_truthiness_validation (cfg : RelayCfg) (sid : String) (tgt pay : JSVal)
    (ht : truthy tgt = true) :
    (truthy pay = true → relayBody cfg sid tgt pay =
      [Emit.addressed tgt cfg.outEvent
        (JSVal.objV [("from", JSVal.strV sid), (cfg.payloadKey, pay)])]) ∧
    (truthy pay = false → relayBody cfg sid tgt pay =
      [Emit.direct sid "error" (JSVal.objV [("message", JSVal.strV cfg.errMsg)])]) := by
  constructor <;> intro hp <;> simp [relayBody, ht, hp]

/-- Witness for the amended claim C7: a present `0` payload is rejected, a
present nonzero number is forwarded as-is. -/
theorem relay_truthiness_validation_witness :
    relayBody userCallCfg "A" (JSVal.strV "B") (JSVal.numV 0) =
      [Emit.direct "A" "error"
        (JSVal.objV [("message", JSVal.strV "Invalid call attempt")])] ∧
    relayBody userCallCfg "A" (JSVal.strV "B") (JSVal.numV 7) =
      [Emit.addressed (JSVal.strV "B") "incoming:call"
        (JSVal.objV [("from", JSVal.strV "A"), ("offer", JSVal.numV 7)])] :=
  ⟨(relay_truthiness_validation userCallCfg "A" (JSVal.strV "B") (JSVal.numV 0)
      (by decide)).2 (by decide),
   (relay_truthiness_validation userCallCfg "A" (JSVal.strV "B") (JSVal.numV 7)
      (by decide)).1 (by decide)⟩

/-- Claim C8, evaluation at the failing input.  A `null` (or absent)
event payload makes the parameter-list destructuring `({ to, offer })`
throw before the try block is entered, in all four relay handlers: the
exception escapes the handler (`Except.error`), contradicting the claim
that every internal fault is caught at the handler boundary.  (The
`room:join` handler, which destructures inside its try block, is immune:
its null-payload result is a caught error notice.) -/
theorem relay_null_payload_uncaught :
    userCall "A" JSVal.nullV = Except.error () ∧
    callAccepted "A" JSVal.nullV = Except.error () ∧
    peerNegoNeeded "A" JSVal.nullV = Except.error () ∧
    peerNegoDone "A" JSVal.nullV = Except.error () ∧
    userCall "A" JSVal.undef = Except.error () :=
  ⟨rfl, rfl, rfl, rfl, rfl⟩

/-- Claim C9: a well-formed relay message addressed to a target that names
no adapter room (a never-connected or already disconnected socket id)
still produces exactly the one forwarded emission — no error notice to
anyone, no exception — and the addressed-send primitive delivers it to
nobody. -/
theorem relay_unknown_target_silent (sid t : String) (fields : List (String × JSVal))
    (rooms : List (String × List String))
    (hto : getField fields "to" = JSVal.strV t) (ht : ¬t = "")
    (hroom : mapGet rooms t = none) :
    roomRecipients rooms (JSVal.strV t) = [] ∧
    (truthy (getField fields "offer") = true →
      userCall sid (JSVal.objV fields) =
        Except.ok [Emit.addressed (JSVal.strV t) "incoming:call"
          (JSVal.objV [("from", JSVal.strV sid), ("offer", getField fields "offer")])]) ∧
    (truthy (getField fields "ans") = true →
      callAccepted sid (JSVal.objV fields) =
        Except.ok [Emit.addressed (JSVal.strV t) "call:accepted"
          (JSVal.objV [("from", JSVal.strV sid), ("ans", getField fields "ans")])]) ∧
    (truthy (getField fields "offer") = true →
      peerNegoNeeded sid (JSVal.objV fields) =
        Except.ok [Emit.addressed (JSVal.strV t) "peer:nego:needed"
          (JSVal.objV [("from", JSVal.strV sid), ("offer", getField fields "offer")])]) ∧
    (truthy (getField fields "ans") = true →
      peerNegoDone sid (JSVal.objV fields) =
        Except.ok [Emit.addressed (JSVal.strV t) "peer:nego:final"
          (JSVal.objV [("from", JSVal.strV sid), ("ans", getField fields "ans")])]) := by
  have htt : truthy (getField fields "to") = true := by
    rw [hto]
    simp [truthy, ht]
  refine ⟨by simp [roomRecipients, hroom], ?_, ?_, ?_, ?_⟩ <;> intro hp
  · simp only [userCall]
    rw [relayHandler_forwards userCallCfg sid fields htt hp, hto]
    rfl
  · simp only [callAccepted]
    rw [relayHandler_forwards callAcceptedCfg sid fields htt hp, hto]
    rfl
  · simp only [peerNegoNeeded]
    rw [relayHandler_forwards peerNegoNeededCfg sid fields htt hp, hto]
    rfl
  · simp only [peerNegoDone]
    rw [relayHandler_forwards peerNegoDoneCfg sid fields htt hp, hto]
    rfl

/-- Witness for claim C9: target "B" is in no adapter room. -/
theorem relay_unknown_target_silent_witness :
    roomRecipients [("r1", ["X"])] (JSVal.strV "B") = [] ∧
    userCall "A" (JSVal.objV [("to", JSVal.strV "B"), ("offer", JSVal.strV "o1")]) =
      Except.ok [Emit.addressed (JSVal.strV "B") "incoming:call"
        (JSVal.objV [("from", JSVal.strV "A"), ("offer", JSVal.strV "o1")])] :=
  ⟨(relay_unknown_target_silent "A" "B" [("to", JSVal.strV "B"), ("offer", JSVal.strV "o1")]
      [("r1", ["X"])] rfl (by decide) (by decide)).1,
   (relay_unknown_target_silent "A" "B" [("to", JSVal.strV "B"), ("offer", JSVal.strV "o1")]
      [("r1", ["X"])] rfl (by decide) (by decide)).2.1 (by decide)⟩
